import Mathlib

/-!
Verification of the playcaster feed engine (`src/lib.rs`).

This file shallowly embeds the data model and the operations of
`Channel::update_with_playlist` and the `Channel::new*` constructors:

* File paths are modelled as a root flag plus a list of components, with
  `parent` / `file_stem` / `extension` following the semantics of Rust's
  `std::path::Path` on Unix (components are assumed to be the already
  parsed normal components, possibly a trailing `..`).
* Fallible Rust operations return `Except`; Rust panics (calls to
  `Option::unwrap` that can fail, or the explicit date-parse panic)
  are modelled by an outer `Option`, `none` meaning a panic.
* `f64` values coming from the fetch collaborator (`filesize_approx`,
  `duration`) are modelled as exact rationals; the Rust `as`-casts to
  `u64`/`i64` are modelled as saturating truncation toward zero.
* Publish dates are kept as calendar fields (year, month, day) denoting
  midnight UTC of that day; the `rss` crate's rfc2822 rendering and the
  decimal rendering of the enclosure length are not re-modelled.
* Effects on the file system (deleting an evicted media file) are
  modelled by an oracle `d : String → Bool` giving each delete attempt's
  success, and `warn!` logging by a list of `Warning` values.
-/

namespace Playcaster

/-! ## Paths (std::path::Path on Unix) -/

/-- A file path: `root` says whether the path is absolute, `comps` are the
parsed components in order (each a non-empty name, possibly `..`). -/
structure FPath where
  root : Bool
  comps : List String
deriving DecidableEq

/-- `Path::file_name`: the last component, unless it is `..` or there is
no component at all. -/
def FPath.fileName (p : FPath) : Option String :=
  match p.comps.getLast? with
  | some c => if c = ".." then none else some c
  | none => none

/-- `Path::parent`: drop the last component; `none` for a root or empty path. -/
def FPath.parent (p : FPath) : Option FPath :=
  match p.comps with
  | [] => none
  | _ :: _ => some ⟨p.root, p.comps.dropLast⟩

/-- Split a file name's characters after the leading character at the last
dot: returns `some (stem-rest, ext)` when a dot exists, `none` otherwise. -/
def lastDotSplit : List Char → Option (List Char × List Char)
  | [] => none
  | c :: rest =>
    match lastDotSplit rest with
    | some (st, ex) => some (c :: st, ex)
    | none => if c = '.' then some ([], rest) else none

/-- `Path::file_stem` / `Path::extension` on a file name: the portion
before/after the last dot, where a dot at position 0 (hidden files) does
not count as an extension separator. -/
def stemExt (f : String) : String × Option String :=
  match f.toList with
  | [] => ("", none)
  | c :: rest =>
    match lastDotSplit rest with
    | some (st, ex) => (String.mk (c :: st), some (String.mk ex))
    | none => (f, none)

/-- `Path::file_stem`. -/
def FPath.fileStem (p : FPath) : Option String :=
  (p.fileName).map (fun f => (stemExt f).1)

/-- `Path::extension`. -/
def FPath.extOf (p : FPath) : Option String :=
  (p.fileName).bind (fun f => (stemExt f).2)

/-- Render a path back to a string (used for the media file paths handed
to `std::fs::remove_file`). -/
def FPath.render (p : FPath) : String :=
  (if p.root then "/" else "") ++ String.intercalate "/" p.comps

/-! ## Error and warning model -/

/-- Opaque payload of an `rss::Error` (feed parse failure). -/
structure FeedErr where
  msg : String
deriving DecidableEq

/-- Opaque payload of a `url::ParseError`. -/
structure UrlErr where
  msg : String
deriving DecidableEq

/-- The crate's `Error` enum (`src/lib.rs` lines 29-64). -/
inductive Error
  | IoError (msg : String)
  | FeedError (e : FeedErr)
  | UrlError (e : UrlErr)
  | YtDlError (msg : String)
  | AllDownloadsEmptyError (url : String)
  | ParentPathError (p : FPath)
  | FileStemError (p : FPath)
  | FileExtensionError (p : FPath)
deriving DecidableEq

/-- A `warn!` log entry emitted during `update_with_playlist`. -/
inductive Warning
  | zeroDur (paths : List String)
  | removeFailed (path : String)
deriving DecidableEq

/-! ## RSS data model (the fields of `rss::Channel` / `rss::Item` the code
touches) -/

/-- A calendar day, denoting midnight UTC of that day (the code renders it
through `to_rfc2822`; the rendering is not re-modelled). -/
structure Date where
  year : Nat
  month : Nat
  day : Nat
deriving DecidableEq

/-- `rss::Guid` (only the value is used by the code). -/
structure Guid where
  value : String
deriving DecidableEq

/-- `rss::Enclosure`. The crate stores `length` as the decimal string of
the `i64` the code computes; the model keeps the integer. -/
structure Enclosure where
  url : String
  length : Int
  mimeType : String
deriving DecidableEq

/-- `rss::extension::itunes::ITunesItemExtension` (fields set by the code). -/
structure ItunesItemExt where
  author : Option String
  subtitle : Option String
  summary : Option String
  image : Option String
  duration : Option String
  explicit : Option String
deriving DecidableEq

/-- `rss::extension::itunes::ITunesChannelExtension` (fields set by the code). -/
structure ItunesChannelExt where
  author : Option String
  subtitle : Option String
  summary : Option String
  image : Option String
  explicit : Option String
  block : Option String
  category : List String
deriving DecidableEq

/-- `rss::Item` (fields the code reads or writes). -/
structure RSSItem where
  guid : Option Guid
  title : Option String
  description : Option String
  link : Option String
  pubDate : Option Date
  enclosure : Option Enclosure
  itunesExt : Option ItunesItemExt
deriving DecidableEq

/-- `rss::Channel` (fields the code reads or writes). -/
structure RSSChannel where
  title : String
  description : String
  link : String
  generator : Option String
  itunesExt : Option ItunesChannelExt
  items : List RSSItem
deriving DecidableEq

/-- `playcaster::Channel`. -/
structure Channel where
  feed_file : FPath
  playlist_url : String
  rss_channel : Option RSSChannel
deriving DecidableEq

/-! ## Fetch collaborator data (`youtube_dl::SingleVideo` / `Playlist`,
restricted to the fields the code reads) -/

/-- A `serde_json::Value` duration: either a number (modelled exactly as a
rational) or some non-numeric JSON value. -/
inductive JsonDur
  | num (q : Rat)
  | other
deriving DecidableEq

/-- `youtube_dl::SingleVideo`, restricted to the fields read by
`update_with_playlist`. -/
structure SingleVideo where
  id : String
  title : Option String
  description : Option String
  thumbnail : Option String
  webpage_url : Option String
  duration : Option JsonDur
  filesize : Option Int
  filesize_approx : Option Rat
  upload_date : Option String
  release_date : Option String
deriving DecidableEq

/-- `youtube_dl::Playlist`, restricted to the fields read by
`update_with_playlist`. -/
structure Playlist where
  title : Option String
  webpage_url : Option String
  entries : Option (List SingleVideo)
deriving DecidableEq

/-- The observable outcome of one `update_with_playlist` call: the state of
`self` after the call, the `warn!` log, and the returned `Result`. -/
structure UpdateOutcome where
  chan : Channel
  warnings : List Warning
  result : Except Error Unit

/-! ## Numeric and date helpers -/

/-- Modelled from the spec: crate metadata (`CARGO_PKG_NAME` etc. come from
`Cargo.toml`, which is not under `src/`); §1 names the tool playcaster and
§9 describes the generator as a tool/version identifier. No claim depends
on the concrete strings. -/
def PKG_NAME : String := "playcaster"

/-- Modelled from the spec: crate version from `Cargo.toml` (not in `src/`). -/
def PKG_VERSION : String := "0.0.0"

/-- Modelled from the spec: crate homepage from `Cargo.toml` (not in `src/`). -/
def PKG_HOMEPAGE : String := "https://github.com/ticky/playcaster"

/-- The generator string `"{PKG_NAME}/{PKG_VERSION} ({PKG_HOMEPAGE})"`. -/
def generatorString : String :=
  PKG_NAME ++ "/" ++ PKG_VERSION ++ " (" ++ PKG_HOMEPAGE ++ ")"

/-- Rust `as u64` on an `f64` (here an exact rational): saturating
truncation toward zero; negative values and values below one give `0`. -/
def f64ToU64 (q : Rat) : Nat :=
  if q ≤ 0 then 0 else min q.floor.toNat (2 ^ 64 - 1)

/-- Rust `as i64` on an `f64` (here an exact rational): saturating
truncation toward zero. -/
def f64ToI64 (q : Rat) : Int :=
  if q ≤ -(2 ^ 63 : Int) then -(2 ^ 63)
  else if (2 ^ 63 : Int) ≤ q then 2 ^ 63 - 1
  else if q < 0 then -((-q).floor)
  else q.floor

/-- The duration in whole seconds the code computes for a video
(`lib.rs` lines 164-173): a JSON number is cast `as u64`, anything else
(non-number, or an absent field) gives `0`. -/
def durationSecs (v : SingleVideo) : Nat :=
  match v.duration with
  | some (.num q) => f64ToU64 q
  | some .other => 0
  | none => 0

/-- The enclosure length (`lib.rs` lines 203-208):
`filesize.unwrap_or_else(|| filesize_approx.unwrap_or(0.0) as i64)`. -/
def enclosureLength (fs : Option Int) (ap : Option Rat) : Int :=
  fs.getD (f64ToI64 (ap.getD 0))

/-- The enclosure length as the spec words it ("the approximate file-size
field rounded to an integer"), using rounding to the nearest integer.
Kept beside `enclosureLength` to compare spec and source. -/
def enclosureLengthClaim (fs : Option Int) (ap : Option Rat) : Int :=
  fs.getD (round (ap.getD 0))

/-- Zero-pad a number below 100 to two digits. -/
def pad2 (n : Nat) : String :=
  if n < 10 then "0" ++ toString n else toString n

/-- The `hhmmss` crate's rendering of a duration in seconds. -/
def hhmmss (secs : Nat) : String :=
  pad2 (secs / 3600) ++ ":" ++ pad2 (secs % 3600 / 60) ++ ":" ++ pad2 (secs % 60)

/-- Numeric value of a decimal digit character. -/
def digitVal (c : Char) : Option Nat :=
  if c.isDigit then some (c.toNat - 48) else none

/-- Parse a fixed list of characters as a decimal number (all digits). -/
def parseDigits (cs : List Char) : Option Nat :=
  cs.foldl (fun acc c => acc.bind (fun n => (digitVal c).map (fun d => n * 10 + d)))
    (some 0)

/-- Gregorian leap year. -/
def isLeap (y : Nat) : Bool :=
  y % 4 = 0 && (y % 100 ≠ 0 || y % 400 = 0)

/-- Days in a month of the proleptic Gregorian calendar. -/
def daysInMonth (y m : Nat) : Nat :=
  if m = 2 then (if isLeap y then 29 else 28)
  else if m = 4 || m = 6 || m = 9 || m = 11 then 30
  else 31

/-- Parse an 8-digit `YYYYMMDD` date as chrono's
`parse_from_str("{s}T00:00Z", "%Y%m%dT%H:%MZ")` does: four year digits,
two month digits, two day digits, and the result must be a real calendar
date. Anything else fails (which the code turns into a panic). -/
def parse8 (s : String) : Option Date :=
  match s.toList with
  | [y1, y2, y3, y4, m1, m2, d1, d2] =>
    (parseDigits [y1, y2, y3, y4]).bind fun y =>
      (parseDigits [m1, m2]).bind fun m =>
        (parseDigits [d1, d2]).bind fun d =>
          if 1 ≤ m ∧ m ≤ 12 ∧ 1 ≤ d ∧ d ≤ daysInMonth y m then
            some ⟨y, m, d⟩
          else none
  | _ => none

/-- The dedup key the code uses:
`item.guid().unwrap().value().to_string()`, before the unwrap. -/
def guidKey (i : RSSItem) : Option String :=
  i.guid.map Guid.value

/-! ## The stages of `update_with_playlist` -/

/-- The on-disk media path `<parent>/<stem>/<fname>` the code builds for an
item (`lib.rs` lines 175-177 and 300-311). -/
def mediaPathString (par : FPath) (stem fname : String) : String :=
  FPath.render ⟨par.root, par.comps ++ [stem, fname]⟩

/-- The publish-date selection (`lib.rs` lines 224-250): the upload date is
tried first, else the release date, else no date is set. The outer `none`
models the panic on a date string that fails to parse. -/
def pubDateSel (v : SingleVideo) : Option (Option Date) :=
  match v.upload_date with
  | some s => (parse8 s).map some
  | none =>
    match v.release_date with
    | some s => (parse8 s).map some
    | none => some none

/-- Every date field that is consulted parses: the condition under which
the date handling in `buildItem` cannot panic. -/
def dateOk (v : SingleVideo) : Bool :=
  match v.upload_date with
  | some s => (parse8 s).isSome
  | none =>
    match v.release_date with
    | some s => (parse8 s).isSome
    | none => true

/-- Build one `rss::Item` from one video descriptor (`lib.rs` lines
161-253). Returns the item and, when the duration is zero, the media path
pushed onto `zero_duration_item_paths`. `none` models a panic: the
`parent()/file_stem()` unwraps on the feed path, or the date-parse panic. -/
def buildItem (feed : FPath) (title base_url : String) (v : SingleVideo) :
    Option (RSSItem × Option String) :=
  match feed.parent, feed.fileStem with
  | some par, some stem =>
    let dur := durationSecs v
    let item_path := mediaPathString par stem (v.id ++ ".mp4")
    let zero : Option String := if dur = 0 then some item_path else none
    let iext : ItunesItemExt :=
      { author := some title, subtitle := v.title, summary := v.description,
        image := v.thumbnail, duration := some (hhmmss dur), explicit := some "No" }
    let encl : Enclosure :=
      { url := base_url ++ "/" ++ stem ++ "/" ++ v.id ++ ".mp4",
        length := enclosureLength v.filesize v.filesize_approx,
        mimeType := "video/mp4" }
    match pubDateSel v with
    | none => none
    | some pubDate =>
      some ({ guid := some ⟨v.id⟩, title := v.title, description := v.description,
              link := v.webpage_url, pubDate := pubDate, enclosure := some encl,
              itunesExt := some iext }, zero)
  | _, _ => none

/-- Build the whole fresh batch (the `entries.iter().map(..).collect()` of
`lib.rs` lines 158-256); `none` models a panic in any item build. -/
def buildAll (feed : FPath) (title base_url : String) :
    List SingleVideo → Option (List (RSSItem × Option String))
  | [] => some []
  | v :: vs =>
    match buildItem feed title base_url v with
    | none => none
    | some p => (buildAll feed title base_url vs).map (p :: ·)

/-- The stable dedup of `Itertools::unique_by` keyed on the guid value
(`lib.rs` lines 288-291), with an explicit seen set; `none` models the
`guid().unwrap()` panic on an item without a guid. -/
def uniqueByAux (seen : List String) : List RSSItem → Option (List RSSItem)
  | [] => some []
  | i :: rest =>
    match i.guid with
    | none => none
    | some g =>
      if g.value ∈ seen then uniqueByAux seen rest
      else (uniqueByAux (g.value :: seen) rest).map (i :: ·)

/-- Dedup of the merged item list, first occurrence of each guid wins. -/
def uniqueByGuid (l : List RSSItem) : Option (List RSSItem) :=
  uniqueByAux [] l

/-- Total counterpart of `uniqueByAux` (items without a guid are dropped
rather than panicking); used to state what the dedup computes. -/
def dedupSeen (seen : List String) : List RSSItem → List RSSItem
  | [] => []
  | i :: rest =>
    match i.guid with
    | none => dedupSeen seen rest
    | some g =>
      if g.value ∈ seen then dedupSeen seen rest
      else i :: dedupSeen (g.value :: seen) rest

/-- The retention step (`lib.rs` lines 293-296): keep the first `K` items,
returning `(kept, removed)`; `drain(K..)` removes everything past `K`. -/
def applyRetention (keep : Option Nat) (items : List RSSItem) :
    List RSSItem × List RSSItem :=
  match keep with
  | none => (items, [])
  | some k => if items.length > k then (items.take k, items.drop k) else (items, [])

/-- The eviction loop over the removed items (`lib.rs` lines 297-317):
per item, unwrap the guid (panic when absent, modelled as `none`), build
the media path (its `ok_or_else` errors abort the update), then attempt
the delete; a failed delete only logs a warning. Returns the warnings
collected and the first path error hit, if any. -/
def evict (feed : FPath) (d : String → Bool) :
    List RSSItem → Option (List Warning × Option Error)
  | [] => some ([], none)
  | i :: rest =>
    match i.guid with
    | none => none
    | some g =>
      match feed.parent with
      | none => some ([], some (.ParentPathError feed))
      | some par =>
        match feed.fileStem with
        | none => some ([], some (.FileStemError feed))
        | some stem =>
          let path := mediaPathString par stem (g.value ++ ".mp4")
          let w : List Warning := if d path then [] else [.removeFailed path]
          match evict feed d rest with
          | none => none
          | some (ws, er) => some (w ++ ws, er)

/-- The artwork sync (`lib.rs` lines 321-328): when the channel has an
itunes extension, copy onto it the `image` of the first kept item that has
an itunes extension (whatever that image is, including `None`). -/
def syncArtwork (chanExt : Option ItunesChannelExt) (items : List RSSItem) :
    Option ItunesChannelExt :=
  match chanExt with
  | none => none
  | some e =>
    match items.findSome? (fun i => i.itunesExt) with
    | some ie => some { e with image := ie.image }
    | none => some e

/-- The artwork rule as the spec words it: the channel artwork becomes the
artwork of the first item in the final list carrying non-empty artwork; if
no item carries artwork the existing artwork is untouched. Kept beside
`syncArtwork` to compare spec and source. -/
def syncArtworkClaim (chanExt : Option ItunesChannelExt) (items : List RSSItem) :
    Option ItunesChannelExt :=
  match chanExt with
  | none => none
  | some e =>
    match items.findSome? (fun i => i.itunesExt.bind ItunesItemExt.image) with
    | some art => some { e with image := some art }
    | none => some e

/-- The channel synthesized when no persisted channel exists
(`lib.rs` lines 265-284). -/
def freshChannel (title : String) : RSSChannel :=
  let description := PKG_NAME ++ " podcast feed for " ++ title
  { title := title, description := description, link := "", generator := none,
    itunesExt := some
      { author := some title, subtitle := some title, summary := some description,
        image := none, explicit := some "No", block := some "Yes",
        category := ["TV & Film"] },
    items := [] }

/-- The items of the persisted channel, if any. -/
def existingItems (ch : Channel) : List RSSItem :=
  match ch.rss_channel with
  | some c => c.items
  | none => []

/-- The tail of `update_with_playlist` after dedup (`lib.rs` lines
293-341): retention, the eviction loop with its best-effort deletes, the
artwork sync and the final channel assembly. Split out of
`updateWithPlaylist` purely for naming; `uniq` is the deduplicated item
list, `zeroWarn` the warning emitted for a partially zero-duration
batch, `rss_channel` the persisted-or-synthesized channel. -/
def finishUpdate (ch : Channel) (pl : Playlist) (keep : Option Nat)
    (zeroWarn : List Warning) (rss_channel : RSSChannel) (uniq : List RSSItem)
    (d : String → Bool) : Option UpdateOutcome :=
  let kr := applyRetention keep uniq
  match evict ch.feed_file d kr.2 with
  | none => none
  | some (_, some e) =>
    some { chan := ch, warnings := zeroWarn, result := .error e }
  | some (ws, none) =>
    let final : RSSChannel :=
      { rss_channel with
        itunesExt := syncArtwork rss_channel.itunesExt kr.1,
        link := pl.webpage_url.getD ch.playlist_url,
        generator := some generatorString,
        items := kr.1 }
    some { chan := { ch with rss_channel := some final },
           warnings := zeroWarn ++ ws, result := .ok () }

/-- `Channel::update_with_playlist` (`lib.rs` lines 144-341). `none`
models a panic; otherwise the outcome carries the post-call state of
`self` (unchanged unless the update succeeded), the `warn!` log, and the
returned `Result`. `d` is the success oracle for media-file deletion. -/
def updateWithPlaylist (ch : Channel) (base_url : String) (keep : Option Nat)
    (pl : Playlist) (d : String → Bool) : Option UpdateOutcome :=
  let title := pl.title.getD ch.playlist_url
  match buildAll ch.feed_file title base_url (pl.entries.getD []) with
  | none => none
  | some built =>
    let rss_items := built.map Prod.fst
    let zeroPaths := built.filterMap Prod.snd
    if rss_items.length ≠ 0 ∧ zeroPaths.length = rss_items.length then
      some { chan := ch, warnings := [],
             result := .error (.AllDownloadsEmptyError ch.playlist_url) }
    else
      let zeroWarn : List Warning :=
        if zeroPaths.length ≠ 0 then [.zeroDur zeroPaths] else []
      let rss_channel := ch.rss_channel.getD (freshChannel title)
      match uniqueByGuid (rss_items ++ rss_channel.items) with
      | none => none
      | some uniq => finishUpdate ch pl keep zeroWarn rss_channel uniq d

/-- The deletion-independent part of an outcome: the post-call state of
`self` and the returned `Result` (everything except the `warn!` log). -/
def outcomeCore (o : UpdateOutcome) : Channel × Except Error Unit :=
  (o.chan, o.result)

/-! ## Constructors (`lib.rs` lines 85-142). File reads and feed parsing
are external collaborators: `parsed` stands for the result of
`rss::Channel::read_from`, `file` for the result of `File::open` composed
with the read (`none` when the open failed), `up` for `Url::parse`. -/

/-- `Channel::new_with_reader_and_url`: a parse failure is discarded with
`.ok()`, leaving `rss_channel` as `None`. -/
def new_with_reader_and_url (f : FPath) (url : String)
    (parsed : Except FeedErr RSSChannel) : Except Error Channel :=
  if (f.extOf).isNone then .error (.FileExtensionError f)
  else .ok ⟨f, url, parsed.toOption⟩

/-- `Channel::new_with_reader`: a parse failure propagates, and the
playlist URL is parsed out of the channel's link. -/
def new_with_reader (f : FPath) (parsed : Except FeedErr RSSChannel)
    (up : String → Except UrlErr String) : Except Error Channel :=
  if (f.extOf).isNone then .error (.FileExtensionError f)
  else
    match parsed with
    | .error e => .error (.FeedError e)
    | .ok c =>
      match up c.link with
      | .error e => .error (.UrlError e)
      | .ok u => .ok ⟨f, u, some c⟩

/-- `Channel::new_with_url`: when the feed file opens, defer to
`new_with_reader_and_url`; otherwise start with no channel. -/
def new_with_url (f : FPath) (url : String)
    (file : Option (Except FeedErr RSSChannel)) : Except Error Channel :=
  if (f.extOf).isNone then .error (.FileExtensionError f)
  else
    match file with
    | some parsed => new_with_reader_and_url f url parsed
    | none => .ok ⟨f, url, none⟩

/-- `Channel::new`: the open failure propagates as an I/O error, then
defer to `new_with_reader`. -/
def new (f : FPath) (file : Option (Except FeedErr RSSChannel))
    (up : String → Except UrlErr String) : Except Error Channel :=
  if (f.extOf).isNone then .error (.FileExtensionError f)
  else
    match file with
    | none => .error (.IoError "open failed")
    | some parsed => new_with_reader f parsed up

/-! ## Concrete fixtures for counterexamples and witnesses -/

/-- A well-formed feed file path, `mightycarmods.xml`. -/
def feedW : FPath := ⟨false, ["mightycarmods.xml"]⟩

/-- The root path `/`: it has no parent, no base name and no extension. -/
def rootP : FPath := ⟨true, []⟩

/-- A typical video descriptor: id `a`, a 706-second duration, an upload
date and an exact file size. -/
def vW : SingleVideo :=
  { id := "a", title := some "T", description := none, thumbnail := some "thumb",
    webpage_url := some "w", duration := some (.num 706), filesize := some 100,
    filesize_approx := some 212973334, upload_date := some "20220206",
    release_date := none }

/-- The rational `7/4 = 1.75`, written as a raw fraction so that kernel
reduction does not need `Rat` normalization. `1.75` is exactly
representable as an `f64`, so this approximate size is one the fetch
collaborator can really report. -/
def q85 : Rat := ⟨7, 4, by norm_num, by norm_num⟩

/-- A descriptor with no exact file size and the approximate size `7/4`
(file sizes come from `f64` fields, so non-integral values occur). -/
def v85 : SingleVideo :=
  { id := "a", title := none, description := none, thumbnail := none,
    webpage_url := none, duration := some (.num 5), filesize := none,
    filesize_approx := some q85, upload_date := none, release_date := none }

/-- Fallback pair for extracting a concrete `buildItem` result. -/
def pFallback : RSSItem × Option String :=
  ({ guid := none, title := none, description := none, link := none,
     pubDate := none, enclosure := none, itunesExt := none }, none)

/-- The item built from `vW` (extracted from the model itself). -/
def builtW : RSSItem × Option String :=
  (buildItem feedW "t" "b" vW).getD pFallback

/-- The item built from `v85`. -/
def built85 : RSSItem × Option String :=
  (buildItem feedW "t" "b" v85).getD pFallback

/-- A channel-level itunes extension carrying existing artwork. -/
def eC0 : ItunesChannelExt :=
  { author := none, subtitle := none, summary := none,
    image := some "old-art", explicit := none, block := none, category := [] }

/-- An item-level itunes extension with no artwork. -/
def extNoArt : ItunesItemExt :=
  { author := none, subtitle := none, summary := none, image := none,
    duration := none, explicit := none }

/-- An item-level itunes extension with artwork `art`. -/
def extArt : ItunesItemExt :=
  { author := none, subtitle := none, summary := none, image := some "art",
    duration := none, explicit := none }

/-- A bare persisted item with guid `old`. -/
def exIW : RSSItem :=
  { guid := some ⟨"old"⟩, title := none, description := none, link := none,
    pubDate := none, enclosure := none, itunesExt := none }

/-- An item with an itunes extension but no artwork. -/
def iNoArt : RSSItem := { exIW with itunesExt := some extNoArt }

/-- A fresh item with guid `a`, first duplicate. -/
def freshA1 : RSSItem := { exIW with guid := some ⟨"a"⟩, title := some "first" }

/-- A fresh item with guid `a`, second duplicate. -/
def freshA2 : RSSItem := { exIW with guid := some ⟨"a"⟩, title := some "second" }

/-- A persisted item also carrying guid `a`. -/
def persistedA : RSSItem := { exIW with guid := some ⟨"a"⟩, title := some "persisted" }

/-- A zero-duration video descriptor with id `z`. -/
def vzW : SingleVideo := { vW with id := "z", duration := some (.num 0) }

/-- A second zero-duration descriptor, id `z2`. -/
def vz2W : SingleVideo := { vzW with id := "z2" }

/-- A persisted channel holding the item `exIW`. -/
def rssW : RSSChannel :=
  { title := "t", description := "d", link := "l", generator := none,
    itunesExt := none, items := [exIW] }

/-- A channel with persisted state `rssW` over the feed file `feedW`. -/
def chW : Channel :=
  { feed_file := feedW, playlist_url := "purl", rss_channel := some rssW }

/-- A playlist whose entries are the two zero-duration descriptors. -/
def plzW : Playlist :=
  { title := some "PT", webpage_url := none, entries := some [vzW, vz2W] }

/-- A playlist whose single entry is the ordinary descriptor `vW`. -/
def plW : Playlist :=
  { title := some "PT", webpage_url := none, entries := some [vW] }

/-- A playlist with no entries at all. -/
def plE : Playlist :=
  { title := none, webpage_url := none, entries := none }

/-- A persisted channel holding an item without a guid. -/
def rssBad : RSSChannel := { rssW with items := [{ exIW with guid := none }] }

/-- A channel whose persisted state contains a guid-less item. -/
def chBad : Channel :=
  { feed_file := feedW, playlist_url := "p", rss_channel := some rssBad }

/-- An item with artwork `art`. -/
def iArt : RSSItem := { exIW with itunesExt := some extArt }

end Playcaster

namespace Playcaster

/-! ## Theorems -/

/-- Claim C3: for every merged deduplicated item list and optional keep
count `K`, an absent `K` returns the list unchanged and evicts nothing; a
present `K` keeps exactly positions `[0, K)` when the length exceeds `K`
(so the kept length is at most `K`) with the evicted set exactly the items
beyond position `K` in merged order, and evicts nothing when the length is
at most `K`. -/
theorem retention_policy (items : List RSSItem) (k : Nat) :
    applyRetention none items = (items, []) ∧
    (applyRetention (some k) items).1.length ≤ k ∧
    (items.length > k →
      applyRetention (some k) items = (items.take k, items.drop k)) ∧
    (items.length ≤ k → applyRetention (some k) items = (items, [])) := by
  refine ⟨rfl, ?_, ?_, ?_⟩
  · by_cases h : items.length > k
    · simp [applyRetention, h]
    · simp [applyRetention, h]; omega
  · intro h; simp [applyRetention, h]
  · intro h; simp [applyRetention]; omega

/-- Witness for C3 at a concrete three-item list and `K = 2`. -/
theorem retention_policy_witness :
    applyRetention (some 2) [exIW, iNoArt, iArt] = ([exIW, iNoArt], [iArt]) ∧
    applyRetention (some 5) [exIW, iNoArt, iArt] = ([exIW, iNoArt, iArt], []) := by
  have h := retention_policy [exIW, iNoArt, iArt] 2
  have h5 := retention_policy [exIW, iNoArt, iArt] 5
  exact ⟨by simpa using h.2.2.1 (by decide), by simpa using h5.2.2.2 (by decide)⟩

/-- A successful `buildItem` determines every field of the item except the
publish date: in particular the guid is the video id and the enclosure
carries `enclosureLength` of the size fields. -/
theorem buildItem_parts (feed : FPath) (title base : String) (v : SingleVideo)
    (it : RSSItem) (z : Option String)
    (hb : buildItem feed title base v = some (it, z)) :
    it.guid = some ⟨v.id⟩ ∧
    (∃ pd, pubDateSel v = some pd ∧ it.pubDate = pd) ∧
    ∃ stem, feed.fileStem = some stem ∧
      it.enclosure = some
        { url := base ++ "/" ++ stem ++ "/" ++ v.id ++ ".mp4",
          length := enclosureLength v.filesize v.filesize_approx,
          mimeType := "video/mp4" } := by
  rcases hp : feed.parent with _ | par
  · simp [buildItem, hp] at hb
  rcases hs : feed.fileStem with _ | stem
  · simp [buildItem, hp, hs] at hb
  rcases hpd : pubDateSel v with _ | pd
  · simp [buildItem, hp, hs, hpd] at hb
  · simp [buildItem, hp, hs, hpd] at hb
    refine ⟨?_, ⟨pd, rfl, ?_⟩, ⟨stem, rfl, ?_⟩⟩ <;> simp [← hb.1]

/-- A successful `buildItem` flags the item as zero-duration exactly when
the computed duration is zero. -/
theorem buildItem_zeroFlag (feed : FPath) (title base : String) (v : SingleVideo)
    (it : RSSItem) (z : Option String)
    (hb : buildItem feed title base v = some (it, z)) :
    z.isSome = (durationSecs v == 0) := by
  rcases hp : feed.parent with _ | par
  · simp [buildItem, hp] at hb
  rcases hs : feed.fileStem with _ | stem
  · simp [buildItem, hp, hs] at hb
  rcases hpd : pubDateSel v with _ | pd
  · simp [buildItem, hp, hs, hpd] at hb
  · simp [buildItem, hp, hs, hpd] at hb
    rw [← hb.2]
    by_cases hz : durationSecs v = 0 <;> simp [hz]

/-- The fixture rational is the literal `7/4`. -/
theorem q85_eq : q85 = 7 / 4 := by
  have hn : ((7 : Rat) / 4).num = 7 := by norm_num
  have hd : ((7 : Rat) / 4).den = 4 := by norm_num
  exact Rat.ext (by rw [hn]; rfl) (by rw [hd]; rfl)

/-- The spec-side length of an approximate size `7/4` is the rounded `2`. -/
theorem claim_length_q85 : enclosureLengthClaim none (some q85) = 2 := by
  show round (Option.getD (some q85) 0) = 2
  rw [Option.getD_some, q85_eq]
  norm_num [round_eq]

/-- Claim C7, counterexample: the code truncates the approximate file size
toward zero (`as i64`), it does not round it to an integer. For the
descriptor `v85` (no exact size, approximate size `7/4`) the built
enclosure length is `1`, while the claim's rounded value is `2`. -/
theorem enclosure_length_counterexample :
    (buildItem feedW "t" "b" v85).map (fun p => p.1.enclosure.map Enclosure.length)
      = some (some 1) ∧
    enclosureLengthClaim v85.filesize v85.filesize_approx = 2 ∧
    enclosureLength v85.filesize v85.filesize_approx ≠
      enclosureLengthClaim v85.filesize v85.filesize_approx := by
  have h2 : enclosureLengthClaim v85.filesize v85.filesize_approx = 2 := by
    show enclosureLengthClaim none (some q85) = 2
    exact claim_length_q85
  have h1 : enclosureLength v85.filesize v85.filesize_approx = 1 := by decide
  exact ⟨by decide, h2, by rw [h1, h2]; decide⟩

/-- Claim C7, amended: for every media descriptor, the enclosure length of
the built item is the exact file-size field when present; otherwise the
approximate file-size field truncated toward zero (the Rust `as i64`
cast, saturating) when present; otherwise `0`. -/
theorem enclosure_length_amended (feed : FPath) (title base : String)
    (v : SingleVideo) (it : RSSItem) (z : Option String) (encl : Enclosure)
    (hb : buildItem feed title base v = some (it, z))
    (he : it.enclosure = some encl) :
    (∀ n, v.filesize = some n → encl.length = n) ∧
    (v.filesize = none → ∀ q, v.filesize_approx = some q →
      encl.length = f64ToI64 q) ∧
    (v.filesize = none → v.filesize_approx = none → encl.length = 0) := by
  obtain ⟨-, -, stem, -, hencl⟩ := buildItem_parts feed title base v it z hb
  rw [hencl] at he
  obtain rfl : encl = _ := (Option.some.injEq _ _).mp he.symm
  refine ⟨?_, ?_, ?_⟩
  · intro n hn; simp [enclosureLength, hn]
  · intro h0 q hq; simp [enclosureLength, h0, hq]
  · intro h0 ha
    simp only [enclosureLength, h0, ha, Option.getD_none]
    decide

/-- Witness for the amended C7 at the concrete descriptor `v85`. -/
theorem enclosure_length_amended_witness :
    (built85.1.enclosure.getD ⟨"", 0, ""⟩).length = f64ToI64 q85 := by
  have h := enclosure_length_amended feedW "t" "b" v85 built85.1 built85.2
    (built85.1.enclosure.getD ⟨"", 0, ""⟩) (by decide) (by decide)
  exact h.2.1 (by decide) q85 (by decide)

/-- Skipping a prefix on which the scan comes up empty does not change a
`findSome?`. -/
theorem findSome?_skip_none {α β : Type} (f : α → Option β) (pre l : List α)
    (h : ∀ a ∈ pre, f a = none) : (pre ++ l).findSome? f = l.findSome? f := by
  induction pre with
  | nil => rfl
  | cons a rest ih =>
    have ha : f a = none := h a (by simp)
    simp only [List.cons_append, List.findSome?_cons, ha]
    exact ih (fun b hb => h b (by simp [hb]))

/-- Claim C5, counterexample: the code copies the artwork of the first
item that has an itunes extension at all, not of the first item with
non-empty artwork. With a first item whose extension has no artwork and a
second item carrying artwork `art`, the code clears the channel artwork
while the claim sets it to `art`. -/
theorem artwork_sync_counterexample :
    syncArtwork (some eC0) [iNoArt, iArt] = some { eC0 with image := none } ∧
    syncArtworkClaim (some eC0) [iNoArt, iArt] = some { eC0 with image := some "art" } ∧
    syncArtwork (some eC0) [iNoArt, iArt] ≠ syncArtworkClaim (some eC0) [iNoArt, iArt] := by
  exact ⟨by decide, by decide, by decide⟩

/-- Claim C5, amended: after merge and eviction, when the channel has an
itunes extension, its artwork is set to the (possibly absent) artwork of
the first item in the final list that has an itunes extension — so an
artwork-less first extension clears the channel artwork; only when no item
has an itunes extension (or the channel itself has none) is the existing
artwork left untouched. -/
theorem artwork_sync_amended (e : ItunesChannelExt) (items : List RSSItem) :
    syncArtwork none items = none ∧
    ((∀ i ∈ items, i.itunesExt = none) → syncArtwork (some e) items = some e) ∧
    (∀ pre j rest ie, items = pre ++ j :: rest →
      (∀ i ∈ pre, i.itunesExt = none) → j.itunesExt = some ie →
      syncArtwork (some e) items = some { e with image := ie.image }) := by
  refine ⟨rfl, ?_, ?_⟩
  · intro h
    have hn : items.findSome? (fun i => i.itunesExt) = none := by
      rw [List.findSome?_eq_none_iff]
      exact h
    simp [syncArtwork, hn]
  · intro pre j rest ie hitems hpre hj
    subst hitems
    have hs : (pre ++ j :: rest).findSome? (fun i => i.itunesExt) = some ie := by
      rw [findSome?_skip_none _ pre _ hpre]
      simp [List.findSome?_cons, hj]
    simp [syncArtwork, hs]

/-- Witness for the amended C5: a bare first item is skipped and the
second item's artwork is copied. -/
theorem artwork_sync_amended_witness :
    syncArtwork (some eC0) [exIW, iArt] = some { eC0 with image := some "art" } :=
  (artwork_sync_amended eC0 [exIW, iArt]).2.2 [exIW] iArt [] extArt rfl
    (by decide) (by decide)

/-- A path lacking a parent or a base name also lacks an extension (both
conditions force `file_name` to be `None`, from which `extension` is
`None` too). -/
theorem extOf_eq_none (f : FPath) (h : f.parent = none ∨ f.fileStem = none) :
    f.extOf = none := by
  have hname : f.fileName = none := by
    rcases h with h | h
    · rcases hc : f.comps with _ | ⟨a, rest⟩
      · simp [FPath.fileName, hc]
      · simp [FPath.parent, hc] at h
    · rcases hn : f.fileName with _ | n
      · rfl
      · simp [FPath.fileStem, hn] at h
  simp [FPath.extOf, hname]

/-- Claim C8, counterexample: the root path `/` has no parent directory,
yet construction fails with `FileExtensionError`, not with the
corresponding `ParentPathError`; no constructor ever produces
`ParentPathError` or `FileStemError`. -/
theorem path_validation_counterexample :
    FPath.parent rootP = none ∧
    new_with_reader_and_url rootP "u" (.error ⟨"e"⟩) =
      .error (.FileExtensionError rootP) ∧
    (Except.error (Error.FileExtensionError rootP) : Except Error Channel) ≠
      Except.error (Error.ParentPathError rootP) := by
  refine ⟨rfl, rfl, ?_⟩
  intro h
  injection h with h
  cases h

/-- Claim C8, amended: every feed file path missing a parent directory, a
base name, or an extension necessarily lacks an extension, and each of the
four constructors fails fast at construction with the extension path error
`FileExtensionError`; the parent and base-name path errors are never
raised at construction. -/
theorem path_validation_amended (f : FPath)
    (h : f.parent = none ∨ f.fileStem = none ∨ f.extOf = none) :
    ∀ (url : String) (parsed : Except FeedErr RSSChannel)
      (file : Option (Except FeedErr RSSChannel))
      (up : String → Except UrlErr String),
      new_with_reader_and_url f url parsed = .error (.FileExtensionError f) ∧
      new_with_reader f parsed up = .error (.FileExtensionError f) ∧
      new_with_url f url file = .error (.FileExtensionError f) ∧
      new f file up = .error (.FileExtensionError f) := by
  have hext : f.extOf = none := by
    rcases h with h | h | h
    · exact extOf_eq_none f (Or.inl h)
    · exact extOf_eq_none f (Or.inr h)
    · exact h
  intro url parsed file up
  refine ⟨?_, ?_, ?_, ?_⟩ <;>
    simp [new_with_reader_and_url, new_with_reader, new_with_url, new, hext]

/-- Witness for the amended C8 at the root path. -/
theorem path_validation_amended_witness :
    new_with_url rootP "u" none = .error (.FileExtensionError rootP) :=
  ((path_validation_amended rootP (Or.inl rfl)) "u" (.error ⟨"e"⟩) none
    (fun s => .ok s)).2.2.1

/-- Claim C10: when a playlist URL is supplied alongside a reader
(`new_with_reader_and_url`, and `new_with_url` over an existing file), a
persisted feed that fails to parse is silently treated as absent
(`rss_channel = None`), while `new_with_reader` (no URL supplied)
propagates the parse error as `FeedError`. -/
theorem parse_failure_policy (f : FPath) (u : String) (e : FeedErr)
    (up : String → Except UrlErr String) (h : (f.extOf).isSome) :
    new_with_reader_and_url f u (.error e) = .ok ⟨f, u, none⟩ ∧
    new_with_url f u (some (.error e)) = .ok ⟨f, u, none⟩ ∧
    new_with_reader f (.error e) up = .error (.FeedError e) := by
  rcases hx : f.extOf with _ | a
  · rw [hx] at h; simp at h
  · refine ⟨?_, ?_, ?_⟩ <;>
      simp [new_with_reader_and_url, new_with_url, new_with_reader, hx,
        Except.toOption]

/-- Witness for C10 at the feed path `mightycarmods.xml`. -/
theorem parse_failure_policy_witness :
    new_with_reader_and_url feedW "u" (.error ⟨"e"⟩) = .ok ⟨feedW, "u", none⟩ ∧
    new_with_reader feedW (.error ⟨"e"⟩) (fun s => .ok s) =
      .error (.FeedError ⟨"e"⟩) := by
  have h := parse_failure_policy feedW "u" ⟨"e"⟩ (fun s => .ok s) (by decide)
  exact ⟨h.1, h.2.2⟩

/-- When every item has a guid, the panicking dedup computes its total
counterpart. -/
theorem uniqueByAux_eq_dedupSeen (l : List RSSItem) : ∀ seen : List String,
    (∀ i ∈ l, (i.guid).isSome) →
    uniqueByAux seen l = some (dedupSeen seen l) := by
  induction l with
  | nil => intro seen h; rfl
  | cons i rest ih =>
    intro seen h
    rcases hg : i.guid with _ | g
    · have hi := h i (by simp)
      rw [hg] at hi
      simp at hi
    · by_cases hm : g.value ∈ seen
      · simp only [uniqueByAux, dedupSeen, hg, if_pos hm]
        exact ih seen (fun j hj => h j (by simp [hj]))
      · simp only [uniqueByAux, dedupSeen, hg, if_neg hm,
          ih (g.value :: seen) (fun j hj => h j (by simp [hj]))]
        rfl

/-- The dedup output is a sublist of its input (survivor order is
preserved). -/
theorem dedupSeen_sublist (l : List RSSItem) : ∀ seen : List String,
    (dedupSeen seen l).Sublist l := by
  induction l with
  | nil => intro seen; simp [dedupSeen]
  | cons i rest ih =>
    intro seen
    rcases hg : i.guid with _ | g
    · simp only [dedupSeen, hg]
      exact (ih seen).cons i
    · by_cases hm : g.value ∈ seen
      · simp only [dedupSeen, hg, if_pos hm]
        exact (ih seen).cons i
      · simp only [dedupSeen, hg, if_neg hm]
        exact (ih (g.value :: seen)).cons₂ i

/-- For a key outside the seen set, the first dedup survivor with that key
is the first input item with that key. -/
theorem dedupSeen_find (l : List RSSItem) : ∀ (seen : List String) (k : String),
    k ∉ seen →
    (dedupSeen seen l).find? (fun i => guidKey i == some k) =
      l.find? (fun i => guidKey i == some k) := by
  induction l with
  | nil => intros; rfl
  | cons i rest ih =>
    intro seen k hk
    rcases hg : i.guid with _ | g
    · have hp : (guidKey i == some k) = false := by simp [guidKey, hg]
      simp only [dedupSeen, hg, List.find?_cons, hp]
      exact ih seen k hk
    · by_cases he : g.value = k
      · have hm : g.value ∉ seen := he ▸ hk
        have hp : (guidKey i == some k) = true := by simp [guidKey, hg, he]
        simp only [dedupSeen, hg, if_neg hm, List.find?_cons, hp]
      · have hp : (guidKey i == some k) = false := by simp [guidKey, hg, he]
        by_cases hm : g.value ∈ seen
        · simp only [dedupSeen, hg, if_pos hm, List.find?_cons, hp]
          exact ih seen k hk
        · simp only [dedupSeen, hg, if_neg hm, List.find?_cons, hp]
          refine ih (g.value :: seen) k ?_
          intro hmem
          rcases List.mem_cons.mp hmem with h1 | h1
          · exact he h1.symm
          · exact hk h1

/-- The dedup output carries pairwise distinct keys, all outside the seen
set. -/
theorem dedupSeen_keys (l : List RSSItem) : ∀ seen : List String,
    ((dedupSeen seen l).filterMap guidKey).Nodup ∧
    ∀ s ∈ (dedupSeen seen l).filterMap guidKey, s ∉ seen := by
  induction l with
  | nil => intro seen; simp [dedupSeen]
  | cons i rest ih =>
    intro seen
    rcases hg : i.guid with _ | g
    · simpa only [dedupSeen, hg] using ih seen
    · by_cases hm : g.value ∈ seen
      · simpa only [dedupSeen, hg, if_pos hm] using ih seen
      · have ih2 := ih (g.value :: seen)
        have hkey : guidKey i = some g.value := by simp [guidKey, hg]
        simp only [dedupSeen, hg, if_neg hm, List.filterMap_cons, hkey]
        refine ⟨List.nodup_cons.mpr ⟨?_, ih2.1⟩, ?_⟩
        · intro hmem
          exact (ih2.2 g.value hmem) (by simp)
        · intro s hs
          rcases List.mem_cons.mp hs with h1 | h1
          · subst h1; exact hm
          · intro hsm
            exact (ih2.2 s h1) (by simp [hsm])

/-- Claim C1: for every merge of a fresh batch with the items of an
(optional) existing channel, the dedup of the concatenation
new-batch-first succeeds and yields a list that preserves the relative
order of all survivors (sublist), contains exactly one entry per distinct
id (keys are nodup, and every input id survives), and keeps the first
occurrence of each id in concatenated order — hence a new-batch item
sharing an id with a persisted item replaces the persisted copy, and
among duplicates inside the new batch the first one wins. -/
theorem merge_dedup (fresh existing : List RSSItem)
    (h : ∀ i ∈ fresh ++ existing, (i.guid).isSome) :
    ∃ out, uniqueByGuid (fresh ++ existing) = some out ∧
      out.Sublist (fresh ++ existing) ∧
      (out.filterMap guidKey).Nodup ∧
      ∀ k : String,
        out.find? (fun i => guidKey i == some k) =
          (fresh ++ existing).find? (fun i => guidKey i == some k) ∧
        ((∃ i ∈ fresh ++ existing, guidKey i = some k) ↔
          ∃ i ∈ out, guidKey i = some k) := by
  refine ⟨dedupSeen [] (fresh ++ existing),
    uniqueByAux_eq_dedupSeen (fresh ++ existing) [] h,
    dedupSeen_sublist (fresh ++ existing) [],
    (dedupSeen_keys (fresh ++ existing) []).1, ?_⟩
  intro k
  have hf := dedupSeen_find (fresh ++ existing) [] k (by simp)
  refine ⟨hf, ?_⟩
  have hiff : ∀ m : List RSSItem,
      (∃ i ∈ m, guidKey i = some k) ↔
        (m.find? (fun i => guidKey i == some k)).isSome := by
    intro m
    rw [List.find?_isSome]
    constructor
    · rintro ⟨i, hi, hk⟩
      exact ⟨i, hi, by simp [hk]⟩
    · rintro ⟨i, hi, hk⟩
      exact ⟨i, hi, by simpa using hk⟩
  rw [hiff, hiff, hf]

/-- When the date fields parse and the feed path has a parent and a stem,
`buildItem` cannot panic, and the zero-duration flag is set exactly for a
zero computed duration. -/
theorem buildItem_total (feed par : FPath) (stem : String)
    (hp : feed.parent = some par) (hs : feed.fileStem = some stem)
    (title base : String) (v : SingleVideo) (hd : dateOk v = true) :
    ∃ it, buildItem feed title base v =
      some (it, if durationSecs v = 0
        then some (mediaPathString par stem (v.id ++ ".mp4")) else none) := by
  have hpd : ∃ pd, pubDateSel v = some pd := by
    unfold dateOk at hd
    rcases hu : v.upload_date with _ | s
    · rw [hu] at hd
      rcases hr : v.release_date with _ | s
      · exact ⟨none, by simp [pubDateSel, hu, hr]⟩
      · rw [hr] at hd
        simp only at hd
        rcases hx : parse8 s with _ | dt
        · rw [hx] at hd; simp at hd
        · exact ⟨some dt, by simp [pubDateSel, hu, hr, hx]⟩
    · rw [hu] at hd
      simp only at hd
      rcases hx : parse8 s with _ | dt
      · rw [hx] at hd; simp at hd
      · exact ⟨some dt, by simp [pubDateSel, hu, hx]⟩
  obtain ⟨pd, hpd⟩ := hpd
  refine ⟨{ guid := some ⟨v.id⟩, title := v.title, description := v.description,
            link := v.webpage_url, pubDate := pd,
            enclosure := some
              { url := base ++ "/" ++ stem ++ "/" ++ v.id ++ ".mp4",
                length := enclosureLength v.filesize v.filesize_approx,
                mimeType := "video/mp4" },
            itunesExt := some
              { author := some title, subtitle := v.title,
                summary := v.description, image := v.thumbnail,
                duration := some (hhmmss (durationSecs v)),
                explicit := some "No" } }, ?_⟩
  simp only [buildItem, hp, hs, hpd]

/-- Building a batch of parseable, all-zero-duration descriptors succeeds
and flags every produced item. -/
theorem buildAll_allzero (feed par : FPath) (stem : String)
    (hp : feed.parent = some par) (hs : feed.fileStem = some stem)
    (title base : String) :
    ∀ es : List SingleVideo, (∀ v ∈ es, dateOk v = true) →
      (∀ v ∈ es, durationSecs v = 0) →
      ∃ built, buildAll feed title base es = some built ∧
        built.length = es.length ∧ ∀ p ∈ built, p.2.isSome := by
  intro es
  induction es with
  | nil => intro _ _; exact ⟨[], rfl, rfl, by simp⟩
  | cons v vs ih =>
    intro hd hz
    obtain ⟨it, hit⟩ :=
      buildItem_total feed par stem hp hs title base v (hd v (by simp))
    rw [if_pos (hz v (by simp))] at hit
    obtain ⟨built, hb, hlen, hflag⟩ :=
      ih (fun w hw => hd w (by simp [hw])) (fun w hw => hz w (by simp [hw]))
    refine ⟨(it, some (mediaPathString par stem (v.id ++ ".mp4"))) :: built,
      by simp [buildAll, hit, hb], by simp [hlen], ?_⟩
    intro p hp2
    rcases List.mem_cons.mp hp2 with h1 | h1
    · subst h1; rfl
    · exact hflag p h1

/-- A `filterMap` over all-`some` second components keeps the length. -/
theorem filterMap_snd_length {α β : Type} (l : List (α × Option β))
    (h : ∀ p ∈ l, p.2.isSome) : (l.filterMap Prod.snd).length = l.length := by
  induction l with
  | nil => rfl
  | cons p rest ih =>
    have hp := h p (by simp)
    rcases hx : p.2 with _ | b
    · rw [hx] at hp; simp at hp
    · simp [List.filterMap_cons, hx, ih (fun q hq => h q (by simp [hq]))]

/-- Claim C2: when the freshly fetched batch is non-empty and every item
in it has zero duration, the update aborts with the distinct
`AllDownloadsEmptyError` and the previously persisted channel state is
left unchanged (`chan = ch`). The check is computed only over the fresh
batch: the persisted items of `ch` are arbitrary. The hypotheses on the
feed path and the date fields rule out the unrelated panics of item
building. -/
theorem allzero_guard (ch : Channel) (base : String) (keep : Option Nat)
    (pl : Playlist) (d : String → Bool) (es : List SingleVideo)
    (par : FPath) (stem : String)
    (hes : pl.entries = some es) (hne : es ≠ [])
    (hz : ∀ v ∈ es, durationSecs v = 0)
    (hd : ∀ v ∈ es, dateOk v = true)
    (hp : ch.feed_file.parent = some par)
    (hs : ch.feed_file.fileStem = some stem) :
    updateWithPlaylist ch base keep pl d =
      some { chan := ch, warnings := [],
             result := .error (.AllDownloadsEmptyError ch.playlist_url) } := by
  obtain ⟨built, hb, hlen, hflag⟩ :=
    buildAll_allzero ch.feed_file par stem hp hs
      (pl.title.getD ch.playlist_url) base es hd hz
  have hne0 : es.length ≠ 0 := by
    simpa [List.length_eq_zero] using hne
  have hcond : (built.map Prod.fst).length ≠ 0 ∧
      (built.filterMap Prod.snd).length = (built.map Prod.fst).length := by
    rw [List.length_map, filterMap_snd_length built hflag, hlen]
    exact ⟨hne0, rfl⟩
  simp only [updateWithPlaylist, hes, Option.getD_some, hb]
  rw [if_pos hcond]

/-- Witness for C2: a batch of two zero-duration items over a persisted
channel; the update aborts and the channel value is untouched. -/
theorem allzero_guard_witness :
    updateWithPlaylist chW "b" none plzW (fun _ => true) =
      some { chan := chW, warnings := [],
             result := .error (.AllDownloadsEmptyError "purl") } :=
  allzero_guard chW "b" none plzW (fun _ => true) [vzW, vz2W] ⟨false, []⟩
    "mightycarmods" rfl (by decide) (by decide) (by decide) rfl (by decide)

/-- Claim C6: the publish date of a built item comes from the upload-date
field when present (8-digit date, midnight UTC), else from the
release-date field in the same format, and is left unset when both are
absent; `20220206` parses to 2022-02-06 (midnight UTC). -/
theorem pubdate_fallback (feed : FPath) (title base : String) (v : SingleVideo)
    (it : RSSItem) (z : Option String)
    (hb : buildItem feed title base v = some (it, z)) :
    (∀ s, v.upload_date = some s →
      ∃ dt, parse8 s = some dt ∧ it.pubDate = some dt) ∧
    (v.upload_date = none → ∀ s, v.release_date = some s →
      ∃ dt, parse8 s = some dt ∧ it.pubDate = some dt) ∧
    (v.upload_date = none → v.release_date = none → it.pubDate = none) ∧
    parse8 "20220206" = some ⟨2022, 2, 6⟩ := by
  obtain ⟨-, ⟨pd, hsel, hpd⟩, -⟩ := buildItem_parts feed title base v it z hb
  refine ⟨?_, ?_, ?_, by decide⟩
  · intro s hu
    simp only [pubDateSel, hu] at hsel
    rcases hx : parse8 s with _ | dt
    · rw [hx] at hsel; simp at hsel
    · rw [hx] at hsel
      simp only [Option.map_some', Option.some.injEq] at hsel
      subst hsel
      exact ⟨dt, rfl, hpd⟩
  · intro hu s hr
    simp only [pubDateSel, hu, hr] at hsel
    rcases hx : parse8 s with _ | dt
    · rw [hx] at hsel; simp at hsel
    · rw [hx] at hsel
      simp only [Option.map_some', Option.some.injEq] at hsel
      subst hsel
      exact ⟨dt, rfl, hpd⟩
  · intro hu hr
    simp only [pubDateSel, hu, hr] at hsel
    rw [hpd]
    injection hsel with hsel
    rw [← hsel]

/-- Witness for C6: the fixture video has upload date `20220206` and no
release date, and its built item carries that date. -/
theorem pubdate_fallback_witness :
    ∃ dt, parse8 "20220206" = some dt ∧ builtW.1.pubDate = some dt :=
  (pubdate_fallback feedW "t" "b" vW builtW.1 builtW.2 (by decide)).1
    "20220206" (by decide)

/-- Which delete attempts succeed never changes whether eviction panics
nor which path error it stops at. -/
theorem evict_snd_indep (feed : FPath) (d1 d2 : String → Bool) :
    ∀ rm : List RSSItem,
      (evict feed d1 rm).map Prod.snd = (evict feed d2 rm).map Prod.snd := by
  intro rm
  induction rm with
  | nil => rfl
  | cons i rest ih =>
    rcases hg : i.guid with _ | g
    · simp [evict, hg]
    · rcases hp : feed.parent with _ | par
      · simp [evict, hg, hp]
      · rcases hs : feed.fileStem with _ | stem
        · simp [evict, hg, hp, hs]
        · simp only [evict, hg, hp, hs]
          rcases h1 : evict feed d1 rest with _ | ⟨ws1, er1⟩ <;>
            rcases h2 : evict feed d2 rest with _ | ⟨ws2, er2⟩ <;>
              rw [h1, h2] at ih <;> simp_all

/-- Every failed delete of a fully processed eviction run is logged. -/
theorem evict_ok_logs (feed : FPath) (d : String → Bool) :
    ∀ (rm : List RSSItem) (ws : List Warning),
      evict feed d rm = some (ws, none) →
      ∀ i ∈ rm, ∀ g par stem, i.guid = some g →
        feed.parent = some par → feed.fileStem = some stem →
        d (mediaPathString par stem (g.value ++ ".mp4")) = false →
        Warning.removeFailed (mediaPathString par stem (g.value ++ ".mp4")) ∈ ws := by
  intro rm
  induction rm with
  | nil =>
    intro ws hev i hi
    cases hi
  | cons j rest ih =>
    intro ws hev i hi g par stem hg hp hs hd
    rcases hjg : j.guid with _ | jg
    · rw [show evict feed d (j :: rest) = none by simp [evict, hjg]] at hev
      cases hev
    · simp only [evict, hjg, hp, hs] at hev
      rcases hrest : evict feed d rest with _ | ⟨ws2, er⟩
      · rw [hrest] at hev; cases hev
      · rw [hrest] at hev
        simp only [Option.some.injEq, Prod.mk.injEq] at hev
        obtain ⟨hws, her⟩ := hev
        rcases List.mem_cons.mp hi with h1 | h1
        · subst h1
          rw [hjg] at hg
          injection hg with hg
          subst hg
          rw [← hws, hd]
          simp
        · have hmem := ih ws2 (by rw [hrest, her]) i h1 g par stem hg hp hs hd
          rw [← hws]
          exact List.mem_append_right _ hmem

/-- Claim C4: eviction cleanup is best-effort. For every update, the
post-call channel state and the returned result are identical whether
deletions fail or all succeed (so a failed delete, including
file-not-found, never causes the update to return an error and never
changes the kept item list), and every failed delete of a completed
eviction run is logged as a warning. -/
theorem eviction_best_effort (ch : Channel) (base : String) (keep : Option Nat)
    (pl : Playlist) (d : String → Bool) :
    (updateWithPlaylist ch base keep pl d).map outcomeCore =
      (updateWithPlaylist ch base keep pl (fun _ => true)).map outcomeCore ∧
    (∀ (rm : List RSSItem) (ws : List Warning),
      evict ch.feed_file d rm = some (ws, none) →
      ∀ i ∈ rm, ∀ g par stem, i.guid = some g →
        ch.feed_file.parent = some par → ch.feed_file.fileStem = some stem →
        d (mediaPathString par stem (g.value ++ ".mp4")) = false →
        Warning.removeFailed (mediaPathString par stem (g.value ++ ".mp4")) ∈ ws) := by
  refine ⟨?_, evict_ok_logs ch.feed_file d⟩
  have hfin : ∀ (zw : List Warning) (rc : RSSChannel) (uniq : List RSSItem),
      (finishUpdate ch pl keep zw rc uniq d).map outcomeCore =
        (finishUpdate ch pl keep zw rc uniq (fun _ => true)).map outcomeCore := by
    intro zw rc uniq
    have hind := evict_snd_indep ch.feed_file d (fun _ => true)
      (applyRetention keep uniq).2
    simp only [finishUpdate]
    rcases he1 : evict ch.feed_file d (applyRetention keep uniq).2
        with _ | ⟨ws1, er1⟩ <;>
      rcases he2 : evict ch.feed_file (fun _ => true)
          (applyRetention keep uniq).2 with _ | ⟨ws2, er2⟩ <;>
        rw [he1, he2] at hind
    all_goals first
      | rfl
      | (obtain rfl : er1 = er2 := by simpa using hind
         rcases er1 with _ | e1 <;> rfl)
      | simp at hind
  simp only [updateWithPlaylist]
  split
  · rfl
  · split
    · rfl
    · split
      · rfl
      · exact hfin _ _ _

/-- Witness for C4: fetching the one-item batch `plW` over the persisted
channel `chW` with `keep = 1` merges to two items and evicts the persisted
item `old`; under the all-failing deleter the post-call channel and result
equal those under the all-succeeding deleter (the update still succeeds
and keeps the same items), and the failed delete of
`mightycarmods/old.mp4` is logged as a warning. -/
theorem eviction_best_effort_witness :
    (updateWithPlaylist chW "b" (some 1) plW (fun _ => false)).map outcomeCore =
      (updateWithPlaylist chW "b" (some 1) plW (fun _ => true)).map outcomeCore ∧
    Warning.removeFailed
        (mediaPathString ⟨false, []⟩ "mightycarmods" ("old" ++ ".mp4")) ∈
      ([Warning.removeFailed
        (mediaPathString ⟨false, []⟩ "mightycarmods" ("old" ++ ".mp4"))] :
        List Warning) :=
  ⟨(eviction_best_effort chW "b" (some 1) plW (fun _ => false)).1,
    (eviction_best_effort chW "b" (some 1) plW (fun _ => false)).2
      [exIW]
      [Warning.removeFailed
        (mediaPathString ⟨false, []⟩ "mightycarmods" ("old" ++ ".mp4"))]
      (by decide) exIW (by decide) ⟨"old"⟩ ⟨false, []⟩ "mightycarmods"
      (by decide) (by decide) (by decide) (by decide)⟩

/-- Every item a successful `buildAll` produces carries a guid. -/
theorem buildAll_guids (feed : FPath) (title base : String) :
    ∀ (es : List SingleVideo) (built : List (RSSItem × Option String)),
      buildAll feed title base es = some built →
      ∀ p ∈ built, (p.1.guid).isSome := by
  intro es
  induction es with
  | nil =>
    intro built hb p hp
    simp only [buildAll, Option.some.injEq] at hb
    subst hb
    cases hp
  | cons v vs ih =>
    intro built hb p hp
    simp only [buildAll] at hb
    rcases hi : buildItem feed title base v with _ | q
    · rw [hi] at hb; cases hb
    · rw [hi] at hb
      rcases hrest : buildAll feed title base vs with _ | rest
      · rw [hrest] at hb; cases hb
      · rw [hrest] at hb
        simp only [Option.map_some', Option.some.injEq] at hb
        subst hb
        rcases List.mem_cons.mp hp with h1 | h1
        · subst h1
          have hg := (buildItem_parts feed title base v p.1 p.2 (by rw [hi])).1
          rw [hg]; rfl
        · exact ih rest hrest p h1

/-- The evicted tail is a subset of the retention input. -/
theorem applyRetention_snd_subset (keep : Option Nat) (items : List RSSItem) :
    ∀ i ∈ (applyRetention keep items).2, i ∈ items := by
  intro i hi
  rcases keep with _ | k
  · cases hi
  · simp only [applyRetention] at hi
    by_cases h : items.length > k
    · rw [if_pos h] at hi
      exact List.drop_subset _ _ hi
    · rw [if_neg h] at hi
      cases hi

/-- Eviction cannot panic when every removed item has a guid. -/
theorem evict_ne_none (feed : FPath) (d : String → Bool) :
    ∀ rm : List RSSItem, (∀ i ∈ rm, (i.guid).isSome) →
      evict feed d rm ≠ none := by
  intro rm
  induction rm with
  | nil => intro h; simp [evict]
  | cons i rest ih =>
    intro h
    rcases hg : i.guid with _ | g
    · have hi := h i (by simp)
      rw [hg] at hi
      simp at hi
    · rcases hp : feed.parent with _ | par
      · simp [evict, hg, hp]
      · rcases hs : feed.fileStem with _ | stem
        · simp [evict, hg, hp, hs]
        · simp only [evict, hg, hp, hs]
          rcases hrest : evict feed d rest with _ | pr
          · exact absurd hrest (ih (fun j hj => h j (by simp [hj])))
          · rcases pr with ⟨ws, er⟩
            simp

/-- Dedup panics as soon as any input item lacks a guid. -/
theorem uniqueByAux_none (l : List RSSItem) : ∀ seen : List String,
    (∃ i ∈ l, i.guid = none) → uniqueByAux seen l = none := by
  induction l with
  | nil =>
    intro seen h
    obtain ⟨i, hi, -⟩ := h
    cases hi
  | cons j rest ih =>
    intro seen h
    obtain ⟨i, hi, hg⟩ := h
    rcases List.mem_cons.mp hi with h1 | h1
    · subst h1
      simp [uniqueByAux, hg]
    · rcases hjg : j.guid with _ | g
      · simp [uniqueByAux, hjg]
      · by_cases hm : g.value ∈ seen
        · simp only [uniqueByAux, hjg, if_pos hm]
          exact ih seen ⟨i, h1, hg⟩
        · simp only [uniqueByAux, hjg, if_neg hm]
          rw [ih (g.value :: seen) ⟨i, h1, hg⟩]
          rfl

/-- The channel the merge reads its persisted items from is `ch`'s
persisted channel when present, else the fresh channel with no items. -/
theorem getD_items (ch : Channel) (t : String) :
    (ch.rss_channel.getD (freshChannel t)).items = existingItems ch := by
  cases hc : ch.rss_channel <;> simp [existingItems, hc, freshChannel]

/-- Claim C9: merge/dedup and eviction unwrap every item's guid. Freshly
built items always carry one (the video id); when additionally every item
persisted in the channel has a guid, `update_with_playlist` cannot panic
(given the batch itself built without panicking); and when some persisted
item lacks a guid the dedup unwrap panics — here exhibited with an empty
fetch batch, so the precondition is necessary. -/
theorem guid_unwrap_precondition :
    (∀ (feed : FPath) (title base : String) (v : SingleVideo)
        (it : RSSItem) (z : Option String),
      buildItem feed title base v = some (it, z) → it.guid = some ⟨v.id⟩) ∧
    (∀ (ch : Channel) (base : String) (keep : Option Nat) (pl : Playlist)
        (d : String → Bool),
      buildAll ch.feed_file (pl.title.getD ch.playlist_url) base
          (pl.entries.getD []) ≠ none →
      (∀ i ∈ existingItems ch, (i.guid).isSome) →
      updateWithPlaylist ch base keep pl d ≠ none) ∧
    (∀ (ch : Channel) (base : String) (keep : Option Nat) (pl : Playlist)
        (d : String → Bool),
      pl.entries = none →
      (∃ i ∈ existingItems ch, i.guid = none) →
      updateWithPlaylist ch base keep pl d = none) := by
  refine ⟨fun feed title base v it z hb =>
    (buildItem_parts feed title base v it z hb).1, ?_, ?_⟩
  · intro ch base keep pl d hba hex
    rcases hb : buildAll ch.feed_file (pl.title.getD ch.playlist_url) base
        (pl.entries.getD []) with _ | built
    · exact absurd hb hba
    · simp only [updateWithPlaylist, hb]
      by_cases hc : (built.map Prod.fst).length ≠ 0 ∧
          (built.filterMap Prod.snd).length = (built.map Prod.fst).length
      · rw [if_pos hc]
        simp
      · rw [if_neg hc]
        have hall : ∀ i ∈ built.map Prod.fst ++
            (ch.rss_channel.getD
              (freshChannel (pl.title.getD ch.playlist_url))).items,
            (i.guid).isSome := by
          intro i hi
          rcases List.mem_append.mp hi with h1 | h1
          · obtain ⟨p, hp2, rfl⟩ := List.mem_map.mp h1
            exact buildAll_guids ch.feed_file (pl.title.getD ch.playlist_url)
              base (pl.entries.getD []) built hb p hp2
          · rw [getD_items] at h1
            exact hex i h1
        rw [show uniqueByGuid (built.map Prod.fst ++
            (ch.rss_channel.getD
              (freshChannel (pl.title.getD ch.playlist_url))).items) = _ from
          uniqueByAux_eq_dedupSeen _ [] hall]
        have hrm : ∀ i ∈ (applyRetention keep (dedupSeen []
            (built.map Prod.fst ++
              (ch.rss_channel.getD
                (freshChannel (pl.title.getD ch.playlist_url))).items))).2,
            (i.guid).isSome := by
          intro i hi
          have h2 := applyRetention_snd_subset keep _ i hi
          have h3 := (dedupSeen_sublist _ []).subset h2
          exact hall i h3
        simp only [finishUpdate]
        rcases he : evict ch.feed_file d (applyRetention keep (dedupSeen []
            (built.map Prod.fst ++
              (ch.rss_channel.getD
                (freshChannel (pl.title.getD ch.playlist_url))).items))).2
          with _ | ⟨ws, er⟩
        · exact absurd he (evict_ne_none ch.feed_file d _ hrm)
        · rcases er with _ | e <;> simp
  · intro ch base keep pl d hent hex
    have hdedup : uniqueByGuid
        ((ch.rss_channel.getD
          (freshChannel (pl.title.getD ch.playlist_url))).items) = none := by
      apply uniqueByAux_none
      obtain ⟨i, hi, hg⟩ := hex
      rw [← getD_items ch (pl.title.getD ch.playlist_url)] at hi
      exact ⟨i, hi, hg⟩
    simp [updateWithPlaylist, hent, buildAll, hdedup]

/-- Witness for C9: the update over an all-guid channel does not panic,
and the update over a channel persisting a guid-less item panics. -/
theorem guid_unwrap_precondition_witness :
    updateWithPlaylist chW "b" none plW (fun _ => true) ≠ none ∧
    updateWithPlaylist chBad "b" none plE (fun _ => true) = none :=
  ⟨guid_unwrap_precondition.2.1 chW "b" none plW (fun _ => true)
      (by decide) (by decide),
    guid_unwrap_precondition.2.2 chBad "b" none plE (fun _ => true)
      rfl (by decide)⟩

/-- Witness for C1: two duplicate fresh items with id `a`, a persisted
item with id `a` and a distinct persisted item with id `old`. -/
theorem merge_dedup_witness :
    ∃ out, uniqueByGuid ([freshA1, freshA2] ++ [persistedA, exIW]) = some out ∧
      out.Sublist ([freshA1, freshA2] ++ [persistedA, exIW]) ∧
      (out.filterMap guidKey).Nodup ∧
      ∀ k : String,
        out.find? (fun i => guidKey i == some k) =
          (([freshA1, freshA2] ++ [persistedA, exIW]).find?
            (fun i => guidKey i == some k)) ∧
        ((∃ i ∈ [freshA1, freshA2] ++ [persistedA, exIW], guidKey i = some k) ↔
          ∃ i ∈ out, guidKey i = some k) :=
  merge_dedup [freshA1, freshA2] [persistedA, exIW] (by decide)

end Playcaster
